import Mathlib

/-!
Verification of the cink lexer/highlighter (Go sources `lexer/lexer.go`,
`highlighter/highlighter.go`, `highlighter/theme.go`) against its
natural-language specification.

Strings are modelled as `List Char`; every byte of the (ASCII) inputs in the
Go code corresponds to one `Char`.  Each definition carries the name of the Go
function or variable it embeds.  The Go regular expressions are embedded as
deterministic character-level matchers: for every pattern used by the lexer
the character classes on both sides of each quantifier are disjoint, so the
backtracking search of the Go engine is equivalent to the greedy scan
implemented here.
-/

namespace Cink

/-- Converts a string literal to the `List Char` representation used
throughout the development. -/
def lit (s : String) : List Char := s.data

/-- The single-quote character (written via its code point). -/
def squote : Char := Char.ofNat 39

/-- The escape byte `\033` (`escapeChar` in highlighter.go). -/
def escapeChar : Char := Char.ofNat 27

/-- ASCII lower-casing of one character (`strings.ToLower` acts as this map
on the ASCII inputs handled here). -/
def charLower (c : Char) : Char :=
  if 'A' ≤ c ∧ c ≤ 'Z' then Char.ofNat (c.toNat + 32) else c

/-- ASCII lower-casing of a word (`strings.ToLower`). -/
def strLower (s : List Char) : List Char := s.map charLower

/-- Splits a character list at every occurrence of `c`; the separators are
dropped.  Used to decompose words at the literal separators (`.`,`:`,`/`)
appearing in the lexer's anchored regular expressions. -/
def splitCh (c : Char) : List Char → List (List Char)
  | [] => [[]]
  | x :: r =>
    let ps := splitCh c r
    if x = c then [] :: ps
    else
      match ps with
      | [] => [[x]]
      | p :: rest => (x :: p) :: rest

/-- `strings.Contains s sub`: some contiguous run of `s` equals `sub`. -/
def containsSub (s sub : List Char) : Bool :=
  s.tails.any (fun t => sub.isPrefixOf t)

/-- Go's `unicode.IsSpace` restricted to ASCII, the trim set of
`strings.TrimSpace`. -/
def isSpaceGo (c : Char) : Bool :=
  c = ' ' || c = '\t' || c = '\n' || c = Char.ofNat 11 || c = Char.ofNat 12 || c = '\r'

/-- `strings.TrimSpace`: drop leading and trailing whitespace. -/
def trimSpace (s : List Char) : List Char :=
  ((s.dropWhile isSpaceGo).reverse.dropWhile isSpaceGo).reverse

/-- The Go regexp class `\s`, i.e. `[\t\n\f\r ]`. -/
def isWsRe (c : Char) : Bool :=
  c = '\t' || c = '\n' || c = Char.ofNat 12 || c = '\r' || c = ' '

/-- The Go regexp class `\w`, i.e. `[0-9A-Za-z_]`. -/
def isWordCh (c : Char) : Bool := c.isAlphanum || c = '_'

/-- Hexadecimal digit, the class `[0-9a-fA-F]`. -/
def isHexCh (c : Char) : Bool :=
  c.isDigit || ('a' ≤ c ∧ c ≤ 'f') || ('A' ≤ c ∧ c ≤ 'F')

/-- `isWhitespace` from lexer.go: space, tab, newline or carriage return. -/
def isWhitespace (c : Char) : Bool :=
  c = ' ' || c = '\t' || c = '\n' || c = '\r'

/-- `isAllDigits` from lexer.go: non-empty and only ASCII digits. -/
def isAllDigits (s : List Char) : Bool :=
  !s.isEmpty && s.all Char.isDigit

/-- `TokenType` from token.go.  `TokenSection`, `TokenInterface`,
`TokenString`, `TokenOperator`, `TokenIPv4Prefix` and `TokenIPv6Prefix` are
renamed to `sectionTk`, `interfaceTk`, `strTk`, `operatorTk`, `ipv4Cidr` and
`ipv6Cidr` because Lean reserves or restricts those identifiers. -/
inductive TokenType where
  | text
  | command
  | sectionTk
  | protocol
  | action
  | interfaceTk
  | ipv4
  | ipv4Cidr
  | ipv6
  | ipv6Cidr
  | mac
  | number
  | strTk
  | comment
  | identifier
  | keyword
  | operatorTk
  | asn
  | community
  | value
  | negation
  | stateGood
  | stateBad
  | stateWarning
  | stateNeutral
  | columnHeader
  | statusSymbol
  | timeDuration
  | percentage
  | byteSize
  | routeProtocol
  | promptHost
  | promptMode
  | promptOper
  | promptConf
deriving DecidableEq

/-- `Token` from token.go. -/
structure Token where
  type : TokenType
  value : List Char
  line : Nat
  col : Nat
deriving DecidableEq

/-- `ParseMode` from lexer.go (`ParseModeShow` is renamed `showMode` because
`show` is a Lean keyword). -/
inductive ParseMode where
  | auto
  | config
  | showMode
deriving DecidableEq

/-- The `Lexer` struct from lexer.go. -/
structure Lexer where
  input : List Char
  pos : Nat
  line : Nat
  col : Nat
  parseMode : ParseMode
  detectedMode : Bool
  expectingValue : Bool
  lastToken : List Char
deriving DecidableEq

/-- `New` from lexer.go, generalized over the parse-mode fields so that the
effect of `SetParseMode` (which sets `parseMode` and `detectedMode := true`
before tokenizing) can be expressed with the same constructor.  `New` itself
is `Lexer.new input .auto false`. -/
def Lexer.new (input : List Char) (pm : ParseMode) (dm : Bool) : Lexer :=
  ⟨input, 0, 1, 1, pm, dm, false, []⟩

/-- The `commands` keyword set from lexer.go. -/
def commands : List (List Char) :=
  [lit "interface", lit "router", lit "ip", lit "ipv6",
   lit "show", lit "configure", lit "hostname", lit "username",
   lit "enable", lit "service", lit "line", lit "logging",
   lit "ntp", lit "snmp-server", lit "crypto", lit "aaa",
   lit "spanning-tree", lit "vlan", lit "banner",
   lit "shutdown", lit "write", lit "copy", lit "reload",
   lit "ping", lit "traceroute", lit "clock", lit "boot",
   lit "archive", lit "errdisable", lit "default-gateway",
   lit "do", lit "exit", lit "end"]

/-- The `sections` keyword set from lexer.go. -/
def sections : List (List Char) :=
  [lit "interface", lit "router", lit "line",
   lit "access-list", lit "route-map", lit "prefix-list",
   lit "class-map", lit "policy-map", lit "crypto",
   lit "vlan", lit "redundancy", lit "controller",
   lit "ip access-list", lit "key", lit "track",
   lit "monitor", lit "event", lit "applet"]

/-- The `protocols` keyword set from lexer.go. -/
def protocols : List (List Char) :=
  [lit "ospf", lit "bgp", lit "eigrp", lit "rip",
   lit "isis", lit "mpls", lit "hsrp", lit "vrrp",
   lit "stp", lit "rstp", lit "lacp", lit "dot1q",
   lit "ipsec", lit "gre", lit "tcp", lit "udp",
   lit "icmp", lit "ssh", lit "dhcp", lit "bfd",
   lit "cdp", lit "lldp", lit "evpn", lit "vxlan",
   lit "isakmp", lit "nhrp", lit "pim", lit "igmp",
   lit "msdp", lit "lisp", lit "omp", lit "snmp",
   lit "radius", lit "tacacs", lit "tacacs+",
   lit "telnet", lit "ftp", lit "tftp", lit "http",
   lit "https", lit "ntp", lit "dns", lit "syslog",
   lit "netflow", lit "sflow", lit "ipfix"]

/-- The `actions` keyword set from lexer.go. -/
def actions : List (List Char) :=
  [lit "permit", lit "deny", lit "log", lit "log-input",
   lit "established", lit "match", lit "set",
   lit "remark", lit "evaluate", lit "reflect"]

/-- The `operators` keyword set from lexer.go. -/
def operators : List (List Char) :=
  [lit "eq", lit "gt", lit "lt", lit "neq",
   lit "range", lit "ge", lit "le", lit "any",
   lit "host"]

/-- The `keywords` keyword set from lexer.go. -/
def keywords : List (List Char) :=
  [lit "description", lit "address", lit "switchport",
   lit "speed", lit "duplex", lit "mtu", lit "bandwidth",
   lit "encapsulation", lit "channel-group", lit "channel-protocol",
   lit "standby", lit "ip address",
   lit "no-autostate", lit "autostate",
   lit "network", lit "neighbor", lit "redistribute",
   lit "area", lit "remote-as", lit "update-source",
   lit "route-map", lit "access-group", lit "nat",
   lit "inside", lit "outside", lit "overload",
   lit "default-information", lit "originate",
   lit "summary-address", lit "passive-interface",
   lit "distance", lit "metric", lit "weight",
   lit "local-preference", lit "next-hop-self",
   lit "soft-reconfiguration", lit "inbound",
   lit "prefix-list", lit "distribute-list",
   lit "maximum-paths", lit "auto-summary",
   lit "synchronization", lit "log-neighbor-changes",
   lit "address-family", lit "unicast", lit "multicast",
   lit "vpnv4", lit "vpnv6",
   lit "access-class", lit "transport", lit "input",
   lit "output", lit "login", lit "password",
   lit "secret", lit "privilege", lit "authentication",
   lit "authorization", lit "accounting", lit "group",
   lit "method", lit "local",
   lit "version", lit "source", lit "trap",
   lit "community", lit "location", lit "contact",
   lit "default", lit "timeout", lit "exec-timeout",
   lit "mask", lit "wildcard", lit "inverse-mask",
   lit "mode", lit "priority", lit "vlan",
   lit "portfast", lit "bpduguard", lit "bpdufilter",
   lit "guard", lit "root",
   lit "name", lit "state", lit "active", lit "suspend",
   lit "class", lit "police", lit "shape",
   lit "queue", lit "dscp", lit "cos",
   lit "service-policy", lit "policy-map",
   lit "new-model", lit "server", lit "key",
   lit "trunk",
   lit "native", lit "allowed", lit "tagging",
   lit "nonegotiate", lit "negotiation", lit "auto",
   lit "half", lit "flow-control",
   lit "send", lit "both",
   lit "storm-control", lit "level"]

/-- The `valueKeywords` set from lexer.go (keywords that consume the rest of
the line as a value). -/
def valueKeywords : List (List Char) :=
  [lit "description", lit "hostname", lit "banner", lit "remark"]

/-- The `statesGood` set from lexer.go. -/
def statesGood : List (List Char) :=
  [lit "up", lit "connected", lit "established",
   lit "full", lit "enabled", lit "active",
   lit "forwarding", lit "ok", lit "online",
   lit "running", lit "ready", lit "complete"]

/-- The `statesGoodCompound` list from lexer.go. -/
def statesGoodCompound : List (List Char) := [lit "up/up"]

/-- The `statesBad` set from lexer.go. -/
def statesBad : List (List Char) :=
  [lit "down", lit "notconnect", lit "err-disabled",
   lit "disabled", lit "failed", lit "idle",
   lit "connect", lit "opensent", lit "openconfirm",
   lit "error", lit "offline", lit "unreachable"]

/-- The `statesBadCompound` list from lexer.go. -/
def statesBadCompound : List (List Char) := [lit "down/down", lit "administratively"]

/-- The `statesWarning` set from lexer.go. -/
def statesWarning : List (List Char) :=
  [lit "init", lit "2way", lit "exstart",
   lit "exchange", lit "loading", lit "attempt",
   lit "flapping", lit "pending", lit "waiting",
   lit "starting", lit "stopping"]

/-- The `statesNeutral` set from lexer.go. -/
def statesNeutral : List (List Char) :=
  [lit "inactive", lit "standby", lit "backup",
   lit "suspended", lit "n/a", lit "none"]

/-- The `columnHeaders` set from lexer.go. -/
def columnHeaders : List (List Char) :=
  [lit "interface", lit "status", lit "protocol",
   lit "address", lit "admin", lit "link",
   lit "speed", lit "type", lit "duplex",
   lit "neighbor", lit "peer", lit "state",
   lit "as", lit "inpkt", lit "outpkt",
   lit "uptime", lit "dead", lit "pri",
   lit "mtu", lit "metric", lit "local",
   lit "remote", lit "outq", lit "up/dn",
   lit "flaps", lit "prefixes", lit "paths",
   lit "vlan", lit "description"]

/-- The `statusSymbols` set from lexer.go. -/
def statusSymbols : List (List Char) :=
  [lit "*", lit "+", lit "-", lit ">",
   lit "B", lit "O", lit "I", lit "S",
   lit "L", lit "D", lit "C", lit "R"]

/-- `ConfigIndicators` from lexer.go. -/
def configIndicators : List (List Char) :=
  [lit "hostname ", lit "interface ", lit "router ", lit "ip address ",
   lit "switchport ", lit "access-list ", lit "no ", lit "line vty",
   lit "line con", lit "service ", lit "enable ", lit "username ",
   lit "ip route ", lit "snmp-server ", lit "logging ", lit "ntp ",
   lit "crypto ", lit "aaa ", lit "spanning-tree ", lit "vlan ",
   lit "banner ", lit "ip access-list "]

/-- `ShowIndicators` from lexer.go. -/
def showIndicators : List (List Char) :=
  [lit "line protocol", lit "up/up", lit "down/down",
   lit "notconnect", lit "err-disabled", lit "connected",
   lit "bgp summary", lit "ospf neighbor",
   lit "show ", lit "last input", lit "last output",
   lit "5 minute", lit "input rate", lit "output rate",
   lit "show version", lit "cisco ios"]

/-- `ciscoSpecificKeywords` from highlighter.go. -/
def ciscoSpecificKeywords : List (List Char) :=
  [lit "switchport mode", lit "ip address ", lit "ip route ",
   lit "router ospf", lit "router bgp", lit "router eigrp",
   lit "transport input", lit "exec-timeout",
   lit "channel-group", lit "spanning-tree portfast"]

/-- The alternatives of the `(?i)(...)` group of `interfacePattern` from
lexer.go, lower-cased (the regexp is case-insensitive). -/
def interfaceNames : List (List Char) :=
  [lit "gigabitethernet", lit "gi", lit "fastethernet", lit "fa",
   lit "tengigabitethernet", lit "tengige", lit "te",
   lit "twentyfivegige", lit "twentyfivegigabitethernet",
   lit "fortygigabitethernet", lit "fo", lit "hundredgige", lit "hu",
   lit "ethernet", lit "eth", lit "loopback", lit "lo",
   lit "vlan", lit "vl", lit "port-channel", lit "po",
   lit "tunnel", lit "tu", lit "serial", lit "se",
   lit "null", lit "bdi", lit "mgmt", lit "nve", lit "nve",
   lit "dialer", lit "di", lit "virtual-template", lit "vt",
   lit "virtual-access", lit "va", lit "multilink", lit "mu",
   lit "atm", lit "cellular", lit "async"]

/-- The numeric tail `\d+(/\d+)*(\.\d+)?$` of `interfacePattern`: the flag
records whether at least one digit of the current `/`-separated group has
been read. -/
def ifaceScan (seenDigit : Bool) : List Char → Bool
  | [] => seenDigit
  | c :: r =>
    if c.isDigit then ifaceScan true r
    else if c = '/' then seenDigit && ifaceScan false r
    else if c = '.' then seenDigit && isAllDigits r
    else false

/-- `interfacePattern` from lexer.go:
`^(?i)(GigabitEthernet|Gi|...)\d+(/\d+)*(\.\d+)?$`. -/
def interfacePattern (word : List Char) : Bool :=
  let lw := strLower word
  interfaceNames.any (fun p => p.isPrefixOf lw && ifaceScan false (lw.drop p.length))

/-- One group `\d{1,3}` of `ipv4Pattern`. -/
def ipv4Group (p : List Char) : Bool :=
  1 ≤ p.length && p.length ≤ 3 && p.all Char.isDigit

/-- `ipv4Pattern` from lexer.go: `^(\d{1,3}\.){3}\d{1,3}$`, i.e. exactly four
dot-separated groups of one to three digits. -/
def ipv4Pattern (word : List Char) : Bool :=
  let ps := splitCh '.' word
  ps.length = 4 && ps.all ipv4Group

/-- `ipv4PrefixPattern` from lexer.go: `^(\d{1,3}\.){3}\d{1,3}/\d{1,2}$`. -/
def ipv4PrefixPattern (word : List Char) : Bool :=
  match splitCh '/' word with
  | [a, b] => ipv4Pattern a && 1 ≤ b.length && b.length ≤ 2 && b.all Char.isDigit
  | _ => false

/-- A `{lo,hi}`-bounded run of hexadecimal digits. -/
def hexGroup (lo hi : Nat) (p : List Char) : Bool :=
  lo ≤ p.length && p.length ≤ hi && p.all isHexCh

/-- First alternative of `ipv6Pattern`:
`^([0-9a-fA-F]{0,4}:){2,7}[0-9a-fA-F]{0,4}$` — splitting at `:` yields
3 to 8 groups of at most four hex digits. -/
def ipv6Alt1 (word : List Char) : Bool :=
  let ps := splitCh ':' word
  3 ≤ ps.length && ps.length ≤ 8 && ps.all (hexGroup 0 4)

/-- Tail `([0-9a-fA-F]{1,4}:)*[0-9a-fA-F]{0,4}$` shared by the second and
third alternatives of `ipv6Pattern`: all colon-separated groups but the last
have one to four hex digits, the last has at most four. -/
def ipv6Tail (rest : List Char) : Bool :=
  let qs := splitCh ':' rest
  qs.dropLast.all (hexGroup 1 4) &&
    (match qs.getLast? with
     | some q => hexGroup 0 4 q
     | none => false)

/-- Second alternative of `ipv6Pattern`:
`^::([0-9a-fA-F]{1,4}:)*[0-9a-fA-F]{0,4}$`. -/
def ipv6Alt2 (word : List Char) : Bool :=
  match word with
  | ':' :: ':' :: rest => ipv6Tail rest
  | _ => false

/-- Third alternative of `ipv6Pattern`:
`^[0-9a-fA-F]{1,4}::([0-9a-fA-F]{1,4}:)*[0-9a-fA-F]{0,4}$`. -/
def ipv6Alt3 (word : List Char) : Bool :=
  let (h, r) := List.span isHexCh word
  hexGroup 1 4 h &&
    (match r with
     | ':' :: ':' :: rest => ipv6Tail rest
     | _ => false)

/-- `ipv6Pattern` from lexer.go (three `|`-alternatives). -/
def ipv6Pattern (word : List Char) : Bool :=
  ipv6Alt1 word || ipv6Alt2 word || ipv6Alt3 word

/-- `ipv6PrefixPattern` from lexer.go: one of the three IPv6 forms followed by
`/\d{1,3}`. -/
def ipv6PrefixPattern (word : List Char) : Bool :=
  match splitCh '/' word with
  | [a, b] => ipv6Pattern a && 1 ≤ b.length && b.length ≤ 3 && b.all Char.isDigit
  | _ => false

/-- `macPatternCisco` from lexer.go:
`^[0-9a-fA-F]{4}\.[0-9a-fA-F]{4}\.[0-9a-fA-F]{4}$`. -/
def macPatternCisco (word : List Char) : Bool :=
  let ps := splitCh '.' word
  ps.length = 3 && ps.all (hexGroup 4 4)

/-- `macPatternColon` from lexer.go: `^([0-9a-fA-F]{2}:){5}[0-9a-fA-F]{2}$`. -/
def macPatternColon (word : List Char) : Bool :=
  let ps := splitCh ':' word
  ps.length = 6 && ps.all (hexGroup 2 2)

/-- `communityPattern` from lexer.go: `^\d+:\d+$`. -/
def communityPattern (word : List Char) : Bool :=
  match splitCh ':' word with
  | [a, b] => isAllDigits a && isAllDigits b
  | _ => false

/-- `asnPattern` from lexer.go: `^[Aa][Ss]\d+$`. -/
def asnPattern (word : List Char) : Bool :=
  match word with
  | a :: s :: rest =>
    (a = 'A' || a = 'a') && (s = 'S' || s = 's') && isAllDigits rest
  | _ => false

/-- The unit letters `[wdhms]` of `timeDurationPattern`. -/
def isWdhms (c : Char) : Bool :=
  c = 'w' || c = 'd' || c = 'h' || c = 'm' || c = 's'

/-- First alternative of `timeDurationPattern`: `^(\d+[wdhms])+$`; the flag
records whether at least one digit of the current group has been read. -/
def durScan (digitSeen : Bool) : List Char → Bool
  | [] => false
  | c :: r =>
    if c.isDigit then durScan true r
    else if isWdhms c then digitSeen && (r.isEmpty || durScan false r)
    else false

/-- `timeDurationPattern` from lexer.go:
`^(\d+[wdhms])+$|^\d+:\d{2}(:\d{2})?$`. -/
def timeDurationPattern (word : List Char) : Bool :=
  durScan false word ||
    (match splitCh ':' word with
     | [a, b] => isAllDigits a && b.length = 2 && b.all Char.isDigit
     | [a, b, c] => isAllDigits a && b.length = 2 && b.all Char.isDigit &&
         c.length = 2 && c.all Char.isDigit
     | _ => false)

/-- A decimal number `\d+(\.\d+)?`. -/
def numDec (s : List Char) : Bool :=
  match splitCh '.' s with
  | [a] => isAllDigits a
  | [a, b] => isAllDigits a && isAllDigits b
  | _ => false

/-- `percentagePattern` from lexer.go: `^\d+(\.\d+)?%$`. -/
def percentagePattern (word : List Char) : Bool :=
  word.getLast? = some '%' && numDec word.dropLast

/-- `byteSizePattern` from lexer.go: `^\d+(\.\d+)?[KMGTP][Bb]?$`. -/
def byteSizePattern (word : List Char) : Bool :=
  let w := if word.getLast? = some 'B' || word.getLast? = some 'b'
           then word.dropLast else word
  match w.getLast? with
  | some u => (u = 'K' || u = 'M' || u = 'G' || u = 'T' || u = 'P') && numDec w.dropLast
  | none => false

/-- The protocol names of `routeProtocolPattern` (case-sensitive). -/
def routeNames : List (List Char) :=
  [lit "BGP", lit "OSPF", lit "EIGRP", lit "RIP", lit "ISIS",
   lit "Static", lit "Direct", lit "Local", lit "Connected", lit "Aggregate"]

/-- `routeProtocolPattern` from lexer.go:
`^\[(BGP|OSPF|EIGRP|RIP|ISIS|Static|Direct|Local|Connected|Aggregate)/\d+\]$`. -/
def routeProtocolPattern (word : List Char) : Bool :=
  match word with
  | '[' :: rest =>
    rest.getLast? = some ']' &&
      (match splitCh '/' rest.dropLast with
       | [n, d] => routeNames.contains n && isAllDigits d
       | _ => false)
  | _ => false

/-- One unanchored match attempt of `tabularPattern`
(`\w+\s{2,}\w+\s{2,}\w+`) starting at the head of `l`. -/
def tabularAt (l : List Char) : Bool :=
  let (w1, r1) := List.span isWordCh l
  let (s1, r2) := List.span isWsRe r1
  let (w2, r3) := List.span isWordCh r2
  let (s2, r4) := List.span isWsRe r3
  1 ≤ w1.length && 2 ≤ s1.length && 1 ≤ w2.length && 2 ≤ s2.length &&
    (match r4 with
     | c :: _ => isWordCh c
     | [] => false)

/-- `tabularPattern` from lexer.go, as an unanchored search:
`\w+\s{2,}\w+\s{2,}\w+` matches somewhere in `s`. -/
def tabularPattern (s : List Char) : Bool :=
  s.tails.any tabularAt

/-- The submatches of `promptPattern`
(`^([\s\x00-\x1f]*)([\w.-]+)(\([\w-]+\))?([>#])\s*(.*?)\n?$`):
`g1` is the leading whitespace/control run, `host` the hostname, `mode` the
parenthesized mode string (including its parentheses, empty when absent),
`pc` the prompt character, `ws` the run matched by `\s*`, `g5` the trailing
command text and `nl` the optional final newline. -/
structure PromptGroups where
  g1 : List Char
  host : List Char
  mode : List Char
  pc : Char
  ws : List Char
  g5 : List Char
  nl : List Char
deriving DecidableEq

/-- Character class of group 1, `[\s\x00-\x1f]` = all code points up to
`0x20`. -/
def isPromptLeadCh (c : Char) : Bool := c.toNat ≤ 32

/-- Character class of group 2, `[\w.-]`. -/
def isHostCh (c : Char) : Bool := isWordCh c || c = '.' || c = '-'

/-- Character class inside group 3, `[\w-]`. -/
def isModeCh (c : Char) : Bool := isWordCh c || c = '-'

/-- The part of `promptPattern` after the `[>#]` prompt character:
`\s*(.*?)\n?$` with `.` not matching `\n`.  Greedy `\s*` takes the maximal
whitespace run `ws`; the remainder must contain `\n` at most as its final
character (shrinking `\s*` can never remove an interior `\n`, so the match is
deterministic). -/
def promptTailMatch (r : List Char) : Option (List Char × List Char × List Char) :=
  let s := List.span isWsRe r
  if s.2.all (fun c => c ≠ '\n') then some (s.1, s.2, [])
  else if s.2.getLast? = some '\n' && (s.2.dropLast.all (fun c => c ≠ '\n')) then
    some (s.1, s.2.dropLast, ['\n'])
  else none

/-- Whole-input match of `promptPattern` from lexer.go.  Each quantified
class is disjoint from what may follow it, so Go's leftmost-first search is
equivalent to this single greedy scan. -/
def promptMatch (input : List Char) : Option PromptGroups :=
  let s1 := List.span isPromptLeadCh input
  let s2 := List.span isHostCh s1.2
  if s2.1.isEmpty then none
  else
    match s2.2 with
    | '(' :: r3 =>
      let s3 := List.span isModeCh r3
      if s3.1.isEmpty then none
      else
        match s3.2 with
        | ')' :: c :: r6 =>
          if c = '>' || c = '#' then
            match promptTailMatch r6 with
            | some t => some ⟨s1.1, s2.1, '(' :: s3.1 ++ [')'], c, t.1, t.2.1, t.2.2⟩
            | none => none
          else none
        | _ => none
    | c :: r6 =>
      if c = '>' || c = '#' then
        match promptTailMatch r6 with
        | some t => some ⟨s1.1, s2.1, [], c, t.1, t.2.1, t.2.2⟩
        | none => none
      else none
    | [] => none

/-- `IsPrompt` from lexer.go: `promptPattern.MatchString(strings.TrimSpace(input))`. -/
def isPrompt (input : List Char) : Bool :=
  (promptMatch (trimSpace input)).isSome

/-- `detectParseMode`'s `configScore` (lexer.go): the number of
`ConfigIndicators` contained in the lower-cased 500-character sample, plus 2
if the sample contains a standalone `!` separator line. -/
def configScore (input : List Char) : Nat :=
  let sample := input.take 500
  let lower := strLower sample
  (configIndicators.countP (fun ind => containsSub lower ind)) +
    (if containsSub sample (lit "\n!\n") || (lit "!\n").isPrefixOf sample then 2 else 0)

/-- `detectParseMode`'s `showScore` (lexer.go): the number of
`ShowIndicators` contained in the lower-cased sample, plus 2 on a
`tabularPattern` match. -/
def showScore (input : List Char) : Nat :=
  let sample := input.take 500
  let lower := strLower sample
  (showIndicators.countP (fun ind => containsSub lower ind)) +
    (if tabularPattern sample then 2 else 0)

/-- `detectParseMode` from lexer.go. -/
def detectParseMode (input : List Char) : ParseMode :=
  if 2 ≤ showScore input ∧ configScore input < showScore input then .showMode
  else .config

/-- `classifySharedPatterns` from lexer.go (patterns common to both modes;
never mutates the lexer). -/
def classifySharedPatterns (l : Lexer) (word : List Char) : TokenType :=
  if interfacePattern word then .interfaceTk
  else if ipv4PrefixPattern word then .ipv4Cidr
  else if ipv4Pattern word then .ipv4
  else if macPatternCisco word then .mac
  else if macPatternColon word then .mac
  else if l.lastToken = lit "community" ∧ communityPattern word then .community
  else if ipv6PrefixPattern word then .ipv6Cidr
  else if ipv6Pattern word then .ipv6
  else if isAllDigits word then .number
  else .identifier

/-- `classifyConfigWord` from lexer.go. -/
def classifyConfigWord (l : Lexer) (word lower : List Char) : TokenType × Lexer :=
  if lower = lit "no" then (.negation, { l with lastToken := lower })
  else if asnPattern word then (.asn, l)
  else if commands.contains lower then (.command, { l with lastToken := lower })
  else if sections.contains lower then (.sectionTk, { l with lastToken := lower })
  else if protocols.contains lower then (.protocol, { l with lastToken := lower })
  else if actions.contains lower then
    (.action, { l with lastToken := lower,
                       expectingValue := if valueKeywords.contains lower then true
                                         else l.expectingValue })
  else if operators.contains lower then (.operatorTk, { l with lastToken := lower })
  else if keywords.contains lower then
    (.keyword, { l with lastToken := lower,
                        expectingValue := if valueKeywords.contains lower then true
                                          else l.expectingValue })
  else (classifySharedPatterns l word, l)

/-- `classifyShowWord` from lexer.go. -/
def classifyShowWord (l : Lexer) (word lower : List Char) : TokenType × Lexer :=
  if statesGoodCompound.contains lower then (.stateGood, l)
  else if statesBadCompound.contains lower then (.stateBad, l)
  else if statesGood.contains lower then (.stateGood, l)
  else if statesBad.contains lower then (.stateBad, l)
  else if statesWarning.contains lower then (.stateWarning, l)
  else if statesNeutral.contains lower then (.stateNeutral, l)
  else if word.length ≤ 2 ∧ statusSymbols.contains word then (.statusSymbol, l)
  else if timeDurationPattern word then (.timeDuration, l)
  else if percentagePattern word then (.percentage, l)
  else if byteSizePattern word then (.byteSize, l)
  else if routeProtocolPattern word then (.routeProtocol, l)
  else if columnHeaders.contains lower then (.columnHeader, l)
  else (classifySharedPatterns l word, l)

/-- `classifyWord` from lexer.go: resolve `Auto` mode at most once, then
dispatch on the resolved mode. -/
def classifyWord (l : Lexer) (word : List Char) : TokenType × Lexer :=
  let l1 := if l.parseMode = .auto ∧ l.detectedMode = false then
              { l with parseMode := detectParseMode l.input, detectedMode := true }
            else l
  let lower := strLower word
  if l1.parseMode = .showMode then classifyShowWord l1 word lower
  else classifyConfigWord l1 word lower

/-- The loop body of `scanString` from lexer.go, after the opening quote has
been consumed: returns the consumed characters.  A backslash escapes the
following character; an unterminated string runs to end of input. -/
def scanStringBody (quote : Char) : List Char → List Char
  | [] => []
  | c :: r =>
    if c = quote then [c]
    else if c = '\\' then
      match r with
      | [] => [c]
      | d :: r' => c :: d :: scanStringBody quote r'
    else c :: scanStringBody quote r

/-- One `advance` step of lexer.go for line/column bookkeeping, folded over
the consumed characters. -/
def advanceLC (lc : Nat × Nat) (cs : List Char) : Nat × Nat :=
  cs.foldl (fun p ch => if ch = '\n' then (p.1 + 1, 1) else (p.1, p.2 + 1)) lc

/-- Consume `cs` characters: advance `pos` and the line/column counters. -/
def consume (l : Lexer) (cs : List Char) : Lexer :=
  let lc := advanceLC (l.line, l.col) cs
  { l with pos := l.pos + cs.length, line := lc.1, col := lc.2 }

/-- `nextToken` from lexer.go, covering `scanComment`, `scanString`,
`scanWhitespace`, `scanValueToEndOfLine` and `scanWord`.  The cases appear in
the order of the Go `switch`. -/
def nextToken (l : Lexer) : Token × Lexer :=
  match l.input.drop l.pos with
  | [] => (⟨.text, [], l.line, l.col⟩, l)
  | ch :: rest =>
    if ch = '!' ∧ l.col = 1 then
      let v := (ch :: rest).takeWhile (fun c => c ≠ '\n')
      (⟨.comment, v, l.line, l.col⟩, consume l v)
    else if ch = '"' ∨ ch = squote then
      let v := ch :: scanStringBody ch rest
      let ty : TokenType := if l.expectingValue then .value else .strTk
      (⟨ty, v, l.line, l.col⟩, consume { l with expectingValue := false } v)
    else if isWhitespace ch then
      let v := (ch :: rest).takeWhile isWhitespace
      (⟨.text, v, l.line, l.col⟩, consume l v)
    else if l.expectingValue then
      let v := (ch :: rest).takeWhile (fun c => c ≠ '\n')
      (⟨.value, v, l.line, l.col⟩, consume { l with expectingValue := false } v)
    else
      let v := (ch :: rest).takeWhile (fun c => !isWhitespace c && c ≠ '"' && c ≠ squote)
      let r := classifyWord l v
      (⟨r.1, v, l.line, l.col⟩, consume r.2 v)

/-- The scanning loop of `Tokenize` from lexer.go: empty `Text` tokens are
dropped.  `fuel` bounds the number of iterations; every iteration consumes at
least one character, so `input.length` steps always suffice. -/
def scanTokens : Nat → Lexer → List Token
  | 0, _ => []
  | fuel + 1, l =>
    if l.pos < l.input.length then
      let r := nextToken l
      if r.1.type = .text ∧ r.1.value = [] then scanTokens fuel r.2
      else r.1 :: scanTokens fuel r.2
    else []

/-- Reassignment of token columns in `tryTokenizePrompt`
(`tok.Column = col; col += len(tok.Value)`), returning the final column. -/
def setColumns (col : Nat) : List Token → List Token × Nat
  | [] => ([], col)
  | t :: ts =>
    let r := setColumns (col + t.value.length) ts
    ({ t with col := col } :: r.1, r.2)

/-- Token assembly of `tryTokenizePrompt` from lexer.go, given the regexp
groups and the already re-lexed command tokens. -/
def buildPromptTokens (m : PromptGroups) (input : List Char) (cmdToks : List Token) :
    List Token :=
  let leadToks : List Token := if m.g1 = [] then [] else [⟨.text, m.g1, 1, 1⟩]
  let col1 := 1 + m.g1.length
  let hostTok : Token := ⟨.promptHost, m.host, 1, col1⟩
  let col2 := col1 + m.host.length
  let modeToks : List Token := if m.mode = [] then [] else [⟨.promptMode, m.mode, 1, col2⟩]
  let col3 := col2 + m.mode.length
  let pcTok : Token := ⟨if m.pc = '#' then .promptConf else .promptOper, [m.pc], 1, col3⟩
  let col4 := col3 + 1
  let cmdPart : List Token × Nat :=
    if m.g5 = [] then ([], col4)
    else
      let r := setColumns (col4 + 1) cmdToks
      (⟨.text, [' '], 1, col4⟩ :: r.1, r.2)
  let nlToks : List Token :=
    if input.getLast? = some '\n' then [⟨.text, ['\n'], 1, cmdPart.2⟩] else []
  leadToks ++ [hostTok] ++ modeToks ++ [pcTok] ++ cmdPart.1 ++ nlToks

/-- `Tokenize` from lexer.go, parameterized by the initial parse-mode fields
(`New` gives `.auto false`; `SetParseMode` gives `pm true`).  The
whole-input prompt short-circuit re-lexes the trimmed trailing command with a
fresh `New` lexer; `fuel` bounds that recursion, and since every recursive
input is strictly shorter, `input.length + 1` always suffices. -/
def tokenizeCore : Nat → ParseMode → Bool → List Char → List Token
  | 0, _, _, _ => []
  | fuel + 1, pm, dm, input =>
    match promptMatch input with
    | some m =>
      let cmdToks := if m.g5 = [] then [] else tokenizeCore fuel .auto false (trimSpace m.g5)
      buildPromptTokens m input cmdToks
    | none => scanTokens input.length (Lexer.new input pm dm)

/-- `New(input).Tokenize()` from lexer.go. -/
def tokenize (input : List Char) : List Token :=
  tokenizeCore (input.length + 1) .auto false input

/-- Tokenization after `SetParseMode(ParseModeShow)`, as performed by
`HighlightShowOutput`. -/
def tokenizeShow (input : List Char) : List Token :=
  tokenizeCore (input.length + 1) .showMode true input

/-- The number of `Tokenize` passes performed on `input`, counting the
initial pass and every recursive re-lexing of trailing prompt command text
performed by `tryTokenizePrompt` (it mirrors the recursion structure of
`tokenizeCore`). -/
def tokenizePasses : Nat → List Char → Nat
  | 0, _ => 1
  | fuel + 1, input =>
    match promptMatch input with
    | some m => if m.g5 = [] then 1 else 1 + tokenizePasses fuel (trimSpace m.g5)
    | none => 1

/-- Concatenation of the `Value` fields of a token sequence. -/
def joinVals (toks : List Token) : List Char :=
  (toks.map Token.value).flatten

/-- `segment` from highlighter.go. -/
structure Segment where
  text : List Char
  isEscape : Bool
deriving DecidableEq

/-- `isCSIParamByte` from highlighter.go: `0x20 ≤ b ≤ 0x3F`. -/
def isCSIParamByte (c : Char) : Bool := 0x20 ≤ c.toNat ∧ c.toNat ≤ 0x3F

/-- `isCSIFinalByte` from highlighter.go: `0x40 ≤ b ≤ 0x7E`. -/
def isCSIFinalByte (c : Char) : Bool := 0x40 ≤ c.toNat ∧ c.toNat ≤ 0x7E

/-- `isCSIIntermediateByte` from highlighter.go: `0x20 ≤ b ≤ 0x2F`. -/
def isCSIIntermediateByte (c : Char) : Bool := 0x20 ≤ c.toNat ∧ c.toNat ≤ 0x2F

/-- `skipCSISequence` from highlighter.go, acting on the characters after
`ESC [`: returns the consumed run (parameter bytes plus at most one final
byte) and the remainder. -/
def skipCSISequence (rest : List Char) : List Char × List Char :=
  let p := List.span isCSIParamByte rest
  match p.2 with
  | c :: r2 => if isCSIFinalByte c then (p.1 ++ [c], r2) else (p.1, p.2)
  | [] => (p.1, [])

/-- `skipOtherEscapeSequence` from highlighter.go, acting on the characters
after a non-CSI `ESC`: a run of intermediate bytes plus one terminating
byte. -/
def skipOtherEscapeSequence (rest : List Char) : List Char × List Char :=
  let p := List.span isCSIIntermediateByte rest
  match p.2 with
  | c :: r2 => (p.1 ++ [c], r2)
  | [] => (p.1, [])

/-- The loop of `extractSegments` from highlighter.go; `buf` is the pending
plain-text accumulator (`textBuf`).  Every iteration consumes at least one
character, so fuel `input.length` suffices. -/
def extractSegmentsGo : Nat → List Char → List Char → List Segment
  | 0, buf, _ => if buf = [] then [] else [⟨buf, false⟩]
  | _ + 1, buf, [] => if buf = [] then [] else [⟨buf, false⟩]
  | fuel + 1, buf, c :: r =>
    if c = escapeChar ∧ r ≠ [] then
      let flush : List Segment := if buf = [] then [] else [⟨buf, false⟩]
      match r with
      | '[' :: r2 =>
        let p := skipCSISequence r2
        flush ++ (⟨c :: '[' :: p.1, true⟩ : Segment) :: extractSegmentsGo fuel [] p.2
      | _ =>
        let p := skipOtherEscapeSequence r
        flush ++ (⟨c :: p.1, true⟩ : Segment) :: extractSegmentsGo fuel [] p.2
    else extractSegmentsGo fuel (buf ++ [c]) r

/-- `extractSegments` from highlighter.go. -/
def extractSegments (input : List Char) : List Segment :=
  extractSegmentsGo input.length [] input

/-- The loop of `StripANSI` from highlighter.go. -/
def stripANSIGo : Nat → List Char → List Char
  | 0, _ => []
  | _ + 1, [] => []
  | fuel + 1, c :: r =>
    if c = escapeChar then
      match r with
      | '[' :: r2 => stripANSIGo fuel (skipCSISequence r2).2
      | _ => stripANSIGo fuel (skipOtherEscapeSequence r).2
    else c :: stripANSIGo fuel r

/-- `StripANSI` from highlighter.go. -/
def stripANSI (input : List Char) : List Char :=
  stripANSIGo input.length input

/-- `HasANSI` from highlighter.go: `strings.Contains(input, "\033[")`. -/
def hasANSI (input : List Char) : Bool :=
  containsSub input (lit "\x1b[")

/-- `Reset` from theme.go. -/
def resetCode : List Char := lit "\x1b[0m"

/-- `Bold` from theme.go. -/
def boldCode : List Char := lit "\x1b[1m"

/-- `Dim` from theme.go. -/
def dimCode : List Char := lit "\x1b[2m"

/-- `Italic` from theme.go. -/
def italicCode : List Char := lit "\x1b[3m"

/-- Decimal digits of `n` (`strconv.Itoa` for the naturals used here). -/
def natChars (n : Nat) : List Char := Nat.toDigits 10 n

/-- `RGB` from theme.go: `"\033[38;2;R;G;Bm"`. -/
def rgbColor (r g b : Nat) : List Char :=
  lit "\x1b[38;2;" ++ natChars r ++ lit ";" ++ natChars g ++ lit ";" ++
    natChars b ++ lit "m"

/-- `Palette` from theme.go (only the fields read by `buildTheme`). -/
structure Palette where
  foreground : List Char
  comment : List Char
  command : List Char
  sectionTk : List Char
  protocol : List Char
  action : List Char
  interfaceTk : List Char
  ip : List Char
  number : List Char
  strTk : List Char
  keyword : List Char
  operatorTk : List Char
  asn : List Char
  community : List Char
  value : List Char
  mac : List Char
  negation : List Char
  stateGood : List Char
  stateBad : List Char
  stateWarning : List Char
  duration : List Char
  routeProtocol : List Char
  promptHost : List Char
  promptMode : List Char
  promptOper : List Char
  promptConf : List Char

/-- `buildTheme` from theme.go; a `Theme` is the total color lookup
`GetColor` (the Go map contains every token type, with `TokenText ↦ ""`). -/
def buildTheme (p : Palette) : TokenType → List Char
  | .command => boldCode ++ p.command
  | .sectionTk => boldCode ++ p.sectionTk
  | .protocol => p.protocol
  | .action => boldCode ++ p.action
  | .interfaceTk => boldCode ++ p.interfaceTk
  | .ipv4 => p.ip
  | .ipv4Cidr => p.ip
  | .ipv6 => p.ip
  | .ipv6Cidr => p.ip
  | .mac => p.mac
  | .number => p.number
  | .strTk => p.strTk
  | .comment => italicCode ++ p.comment
  | .identifier => p.foreground
  | .keyword => p.keyword
  | .operatorTk => p.operatorTk
  | .asn => p.asn
  | .community => p.community
  | .value => p.value
  | .negation => boldCode ++ p.negation
  | .text => []
  | .stateGood => boldCode ++ p.stateGood
  | .stateBad => boldCode ++ p.stateBad
  | .stateWarning => boldCode ++ p.stateWarning
  | .stateNeutral => dimCode ++ p.comment
  | .columnHeader => boldCode ++ p.foreground
  | .statusSymbol => boldCode ++ p.protocol
  | .timeDuration => p.duration
  | .percentage => p.stateGood
  | .byteSize => p.protocol
  | .routeProtocol => boldCode ++ p.routeProtocol
  | .promptHost => boldCode ++ p.promptHost
  | .promptMode => p.promptMode
  | .promptOper => boldCode ++ p.promptOper
  | .promptConf => boldCode ++ p.promptConf

/-- `TokyoNightTheme` from theme.go (the default theme). -/
def tokyoNightTheme : TokenType → List Char :=
  let foreground := rgbColor 192 202 245
  let comment := rgbColor 86 95 137
  let red := rgbColor 247 118 142
  let green := rgbColor 158 206 106
  let yellow := rgbColor 224 175 104
  let blue := rgbColor 122 162 247
  let magenta := rgbColor 187 154 247
  let cyan := rgbColor 125 207 255
  let orange := rgbColor 255 158 100
  let purple := rgbColor 157 124 216
  let teal := rgbColor 115 218 202
  buildTheme
    { foreground := foreground, comment := comment, command := magenta,
      sectionTk := blue, protocol := cyan, action := green,
      interfaceTk := orange, ip := teal, number := purple, strTk := green,
      keyword := yellow, operatorTk := blue, asn := orange,
      community := magenta, value := cyan, mac := cyan, negation := red,
      stateGood := green, stateBad := red, stateWarning := yellow,
      duration := orange, routeProtocol := purple, promptHost := teal,
      promptMode := yellow, promptOper := green, promptConf := red }

/-- The `Highlighter` struct from highlighter.go (the mutex only guards
concurrent access and has no sequential behavior). -/
structure Highlighter where
  theme : TokenType → List Char
  enabled : Bool

/-- `New` from highlighter.go: default theme (Tokyo Night), enabled. -/
def Highlighter.new : Highlighter := ⟨tokyoNightTheme, true⟩

/-- `Disable` from highlighter.go. -/
def Highlighter.disable (h : Highlighter) : Highlighter := { h with enabled := false }

/-- `Enable` from highlighter.go. -/
def Highlighter.enable (h : Highlighter) : Highlighter := { h with enabled := true }

/-- `Toggle` from highlighter.go (the state after toggling; the returned
Bool is the new `enabled` field). -/
def Highlighter.toggle (h : Highlighter) : Highlighter := { h with enabled := !h.enabled }

/-- `renderTokens` from highlighter.go: wrap each token whose category has a
non-empty color in `color ++ text ++ reset`. -/
def renderTokens (theme : TokenType → List Char) (toks : List Token) : List Char :=
  (toks.map (fun t =>
    let color := theme t.type
    if color = [] then t.value else color ++ t.value ++ resetCode)).flatten

/-- `highlightTokensCleaned` from highlighter.go. -/
def highlightTokensCleaned (h : Highlighter) (cleaned : List Char) : List Char :=
  renderTokens h.theme (tokenize cleaned)

/-- `highlightTokens` from highlighter.go: escape segments pass through
verbatim, text segments are rendered. -/
def highlightTokens (h : Highlighter) (input : List Char) : List Char :=
  ((extractSegments input).map (fun seg =>
    if seg.isEscape then seg.text else highlightTokensCleaned h seg.text)).flatten

/-- `isValidHostname` from highlighter.go. -/
def isValidHostname (s : List Char) : Bool :=
  !s.isEmpty && s.all (fun c => c.isAlphanum || c = '-' || c = '.' || c = '_')

/-- Index of the last occurrence of `c` (`strings.LastIndex` with a one-byte
needle). -/
def lastIndexOfCh (c : Char) : List Char → Option Nat
  | [] => none
  | x :: r =>
    match lastIndexOfCh c r with
    | some i => some (i + 1)
    | none => if x = c then some 0 else none

/-- `isPromptLine` from highlighter.go: `lexer.IsPrompt`, or a trimmed line
ending in `>`/`#` whose remainder (with a trailing parenthesized mode
removed) is a valid hostname. -/
def isPromptLine (input : List Char) : Bool :=
  if isPrompt input then true
  else
    let trimmed := trimSpace input
    if 1 < trimmed.length then
      match trimmed.getLast? with
      | some last =>
        if last = '>' ∨ last = '#' then
          let base := trimmed.dropLast
          let pfx :=
            match lastIndexOfCh ')' base with
            | some _ =>
              match lastIndexOfCh '(' base with
              | some pIdx => base.take pIdx
              | none => base
            | none => base
          !pfx.isEmpty && isValidHostname pfx
        else false
      | none => false
    else false

/-- `hasConfigIndicators` from highlighter.go. -/
def hasConfigIndicators (lower : List Char) : Bool :=
  configIndicators.any (fun ind => containsSub lower ind)

/-- `hasShowIndicators` from highlighter.go. -/
def hasShowIndicators (lower : List Char) : Bool :=
  showIndicators.any (fun ind => containsSub lower ind)

/-- `hasCiscoSeparators` from highlighter.go: at least two lines whose
trimmed content is exactly `!`. -/
def hasCiscoSeparators (input : List Char) : Bool :=
  2 ≤ ((splitCh '\n' input).filter (fun ln => trimSpace ln = lit "!")).length

/-- `hasCiscoKeywords` from highlighter.go. -/
def hasCiscoKeywords (lower : List Char) : Bool :=
  ciscoSpecificKeywords.any (fun kw => containsSub lower kw)

/-- `looksLikeCisco` from highlighter.go. -/
def looksLikeCisco (input : List Char) : Bool :=
  if isPromptLine input then true
  else
    let lower := strLower input
    hasConfigIndicators lower || hasShowIndicators lower ||
      hasCiscoSeparators input || hasCiscoKeywords lower

/-- `Highlight` from highlighter.go (the auto-detecting entry point): strip
escapes, gate on `looksLikeCisco`, then render the cleaned text. -/
def Highlight (h : Highlighter) (input : List Char) : List Char :=
  if h.enabled = false ∨ input = [] then input
  else
    let cleaned := stripANSI input
    if looksLikeCisco cleaned = false then input
    else highlightTokensCleaned h cleaned

/-- `HighlightForced` from highlighter.go (the forced entry point). -/
def HighlightForced (h : Highlighter) (input : List Char) : List Char :=
  if h.enabled = false ∨ input = [] then input
  else highlightTokens h input

/-- `HighlightShowOutput` from highlighter.go. -/
def HighlightShowOutput (h : Highlighter) (input : List Char) : List Char :=
  if h.enabled = false ∨ input = [] then input
  else renderTokens h.theme (tokenizeShow input)

/-! ## Helper lemmas -/

/-- A list prefix written as an append determines the corresponding drop. -/
theorem drop_of_append_eq {v t l : List Char} (h : v ++ t = l) :
    l.drop v.length = t := by
  subst h
  exact List.drop_left v t

/-- The characters consumed by `scanStringBody` are an initial run of its
argument. -/
theorem scanStringBody_pre (q : Char) (l : List Char) :
    ∃ t, scanStringBody q l ++ t = l := by
  induction l using scanStringBody.induct q with
  | case1 => exact ⟨[], rfl⟩
  | case2 r =>
    exact ⟨r, by rw [scanStringBody.eq_def]; simp⟩
  | case3 hq =>
    exact ⟨[], by rw [scanStringBody.eq_def]; simp [hq]⟩
  | case4 x r hq ih =>
    obtain ⟨t, ht⟩ := ih
    refine ⟨t, ?_⟩
    rw [scanStringBody.eq_def]
    simpa [hq] using ht
  | case5 x r hx hb ih =>
    obtain ⟨t, ht⟩ := ih
    refine ⟨t, ?_⟩
    rw [scanStringBody.eq_def]
    simpa [hx, hb] using ht

/-- `takeWhile` and the matching `drop` recompose the list. -/
theorem takeWhile_append_drop (p : Char → Bool) (l : List Char) :
    l.takeWhile p ++ l.drop (l.takeWhile p).length = l := by
  have h := List.takeWhile_append_dropWhile (p := p) (l := l)
  calc l.takeWhile p ++ l.drop (l.takeWhile p).length
      = l.takeWhile p ++ l.dropWhile p := by
        rw [drop_of_append_eq h]
    _ = l := h

theorem consume_input (l : Lexer) (cs : List Char) : (consume l cs).input = l.input := rfl

theorem consume_pos (l : Lexer) (cs : List Char) :
    (consume l cs).pos = l.pos + cs.length := rfl

theorem takeWhile_cons_pos (p : Char → Bool) (a : Char) (l : List Char) (h : p a = true) :
    (a :: l).takeWhile p = a :: l.takeWhile p := by
  simp [List.takeWhile_cons, h]

/-- Config-mode classification only updates `lastToken` and
`expectingValue`. -/
theorem classifyConfigWord_fields (l : Lexer) (w lo : List Char) :
    (classifyConfigWord l w lo).2.input = l.input ∧
    (classifyConfigWord l w lo).2.pos = l.pos ∧
    (classifyConfigWord l w lo).2.parseMode = l.parseMode ∧
    (classifyConfigWord l w lo).2.detectedMode = l.detectedMode := by
  unfold classifyConfigWord
  repeat' (first | exact ⟨rfl, rfl, rfl, rfl⟩ | split)

/-- Show-mode classification never updates the lexer state. -/
theorem classifyShowWord_fields (l : Lexer) (w lo : List Char) :
    (classifyShowWord l w lo).2 = l := by
  unfold classifyShowWord
  simp only [apply_ite (Prod.snd : TokenType × Lexer → Lexer), ite_self]

/-- `classifyWord` only updates the mode fields (on first resolution),
`lastToken` and `expectingValue`; the input and the cursor are untouched. -/
theorem classifyWord_fields (l : Lexer) (w : List Char) :
    (classifyWord l w).2.input = l.input ∧ (classifyWord l w).2.pos = l.pos := by
  unfold classifyWord
  dsimp only
  split_ifs with hres hm hm
  · rw [classifyShowWord_fields]
    exact ⟨rfl, rfl⟩
  · obtain ⟨hi, hp, _, _⟩ := classifyConfigWord_fields
      { l with parseMode := detectParseMode l.input, detectedMode := true } w (strLower w)
    exact ⟨hi, hp⟩
  · rw [classifyShowWord_fields]
    exact ⟨rfl, rfl⟩
  · obtain ⟨hi, hp, _, _⟩ := classifyConfigWord_fields l w (strLower w)
    exact ⟨hi, hp⟩

/-- Every `nextToken` step on a non-exhausted lexer yields a non-empty token
value that is exactly the consumed run of the input: the cursor advances by
the token's length, and the token text followed by the rest of the input
reassembles the unconsumed input. -/
theorem nextToken_spec (l : Lexer) (h : l.pos < l.input.length) :
    (nextToken l).1.value ≠ [] ∧
    (nextToken l).2.input = l.input ∧
    (nextToken l).2.pos = l.pos + (nextToken l).1.value.length ∧
    (nextToken l).1.value ++ l.input.drop ((nextToken l).2.pos) = l.input.drop l.pos := by
  have hne : l.input.drop l.pos ≠ [] := by
    intro hx
    rw [List.drop_eq_nil_iff] at hx
    omega
  obtain ⟨ch, rest, hd⟩ : ∃ ch rest, l.input.drop l.pos = ch :: rest := by
    cases hx : l.input.drop l.pos with
    | nil => exact absurd hx hne
    | cons a b => exact ⟨a, b, rfl⟩
  have hdrop : ∀ v w : List Char, v ++ w = ch :: rest →
      v ++ l.input.drop (l.pos + v.length) = ch :: rest := by
    intro v w hvw
    have h1 : l.input.drop (l.pos + v.length) = (l.input.drop l.pos).drop v.length := by
      rw [List.drop_drop, Nat.add_comm]
    rw [h1, hd, drop_of_append_eq hvw, hvw]
  simp only [nextToken, hd]
  split_ifs with h1 h2 h3 h4 h5
  · -- comment: `!` at column 1
    obtain ⟨hc, _⟩ := h1
    have hp : (fun c => (c ≠ '\n' : Bool)) ch = true := by
      subst hc; decide
    dsimp only
    rw [takeWhile_cons_pos _ ch rest hp]
    refine ⟨by simp, rfl, consume_pos _ _, ?_⟩
    rw [consume_pos]
    exact hdrop _ _ (by
      rw [← takeWhile_cons_pos _ ch rest hp]
      exact takeWhile_append_drop _ (ch :: rest))
  · -- quoted string consumed as a Value token
    dsimp only
    refine ⟨by simp, rfl, consume_pos _ _, ?_⟩
    rw [consume_pos]
    obtain ⟨t, ht⟩ := scanStringBody_pre ch rest
    exact hdrop _ t (by rw [List.cons_append, ht])
  · -- quoted string consumed as a String token
    dsimp only
    refine ⟨by simp, rfl, consume_pos _ _, ?_⟩
    rw [consume_pos]
    obtain ⟨t, ht⟩ := scanStringBody_pre ch rest
    exact hdrop _ t (by rw [List.cons_append, ht])
  · -- whitespace run
    dsimp only
    rw [takeWhile_cons_pos _ ch rest h4]
    refine ⟨by simp, rfl, consume_pos _ _, ?_⟩
    rw [consume_pos]
    exact hdrop _ _ (by
      rw [← takeWhile_cons_pos _ ch rest h4]
      exact takeWhile_append_drop _ (ch :: rest))
  · -- unquoted value to end of line
    have hnl : ch ≠ '\n' := by
      intro hx
      apply h4
      subst hx
      decide
    have hp : (fun c => (c ≠ '\n' : Bool)) ch = true := by simpa using hnl
    dsimp only
    rw [takeWhile_cons_pos _ ch rest hp]
    refine ⟨by simp, rfl, consume_pos _ _, ?_⟩
    rw [consume_pos]
    exact hdrop _ _ (by
      rw [← takeWhile_cons_pos _ ch rest hp]
      exact takeWhile_append_drop _ (ch :: rest))
  · -- word
    have hp : (fun c => !isWhitespace c && (c ≠ '"' : Bool) && (c ≠ squote : Bool)) ch
        = true := by
      have hq : ¬(ch = '"' ∨ ch = squote) := h2
      push_neg at hq
      have hw : isWhitespace ch = false := by simpa using h4
      simp [hq.1, hq.2, hw]
    dsimp only
    rw [takeWhile_cons_pos _ ch rest hp]
    refine ⟨by simp, ?_, ?_, ?_⟩
    · rw [consume_input]
      exact (classifyWord_fields _ _).1
    · rw [consume_pos, (classifyWord_fields _ _).2]
    · rw [consume_pos, (classifyWord_fields _ _).2]
      exact hdrop _ _ (by
        rw [← takeWhile_cons_pos _ ch rest hp]
        exact takeWhile_append_drop _ (ch :: rest))

/-- The scanning loop is lossless: with sufficient fuel, concatenating the
values of the produced tokens reproduces the unconsumed input. -/
theorem scanTokens_joinVals :
    ∀ (fuel : Nat) (l : Lexer), l.input.length - l.pos ≤ fuel →
      joinVals (scanTokens fuel l) = l.input.drop l.pos := by
  intro fuel
  induction fuel with
  | zero =>
    intro l h
    have hle : l.input.length ≤ l.pos := by omega
    simp only [scanTokens, joinVals, List.map_nil, List.flatten_nil]
    exact (List.drop_eq_nil_iff.mpr hle).symm
  | succ fuel ih =>
    intro l h
    by_cases hlt : l.pos < l.input.length
    · obtain ⟨hv, hi, hp, hcat⟩ := nextToken_spec l hlt
      have hone : 1 ≤ (nextToken l).1.value.length := by
        cases hx : (nextToken l).1.value with
        | nil => exact absurd hx hv
        | cons a b => simp
      have hcond : ¬((nextToken l).1.type = .text ∧ (nextToken l).1.value = []) := by
        intro hx
        exact hv hx.2
      have hrec := ih (nextToken l).2 (by rw [hi, hp]; omega)
      rw [hi] at hrec
      simp only [scanTokens]
      rw [if_pos hlt, if_neg hcond]
      calc joinVals ((nextToken l).1 :: scanTokens fuel (nextToken l).2)
          = (nextToken l).1.value ++ joinVals (scanTokens fuel (nextToken l).2) := by
            simp [joinVals]
        _ = (nextToken l).1.value ++ l.input.drop (nextToken l).2.pos := by rw [hrec]
        _ = l.input.drop l.pos := hcat
    · have hle : l.input.length ≤ l.pos := by omega
      simp only [scanTokens]
      rw [if_neg hlt]
      simp only [joinVals, List.map_nil, List.flatten_nil]
      exact (List.drop_eq_nil_iff.mpr hle).symm

/-- C1: Token-level losslessness of `Tokenize`.  The claim holds exactly on
the inputs where the whole-input prompt short-circuit is NOT taken:
concatenating the `Value` fields of the produced tokens, in order,
reconstructs the input.  (On the prompt path it fails; see the
counterexample.) -/
theorem tokenize_lossless (input : List Char) (h : promptMatch input = none) :
    joinVals (tokenize input) = input := by
  have hs := scanTokens_joinVals input.length (Lexer.new input .auto false)
    (by simp [Lexer.new])
  simpa [tokenize, tokenizeCore, h, Lexer.new] using hs

/-- C1 (witness): the losslessness theorem applied to the non-prompt input
`"no shutdown"`. -/
theorem tokenize_lossless_witness :
    promptMatch (lit "no shutdown") = none ∧
    joinVals (tokenize (lit "no shutdown")) = lit "no shutdown" :=
  ⟨by decide, tokenize_lossless (lit "no shutdown") (by decide)⟩

/-- C1 (counterexample): on the whole-input prompt path losslessness fails.
For the input `"R#x"` the prompt tokenizer inserts a separating space before
the re-lexed command, so the concatenated token values read `"R# x"`, which
differs from the input. -/
theorem tokenize_prompt_not_lossless :
    joinVals (tokenize (lit "R#x")) = lit "R# x" ∧ lit "R# x" ≠ lit "R#x" := by
  constructor
  · decide
  · decide

theorem append_eq_length_le {a b r : List Char} (h : a ++ b = r) :
    b.length ≤ r.length := by
  subst h
  simp

theorem span_append (p : Char → Bool) (l : List Char) :
    (List.span p l).1 ++ (List.span p l).2 = l := by
  simp [List.span_eq_take_drop]

theorem skipCSISequence_append (r : List Char) :
    (skipCSISequence r).1 ++ (skipCSISequence r).2 = r := by
  have hs := span_append isCSIParamByte r
  simp only [skipCSISequence]
  split
  · rename_i c r2 heq
    split_ifs
    · rw [List.append_assoc, List.singleton_append, ← heq]
      exact hs
    · exact hs
  · rename_i heq
    rw [heq] at hs
    exact hs

theorem skipOtherEscapeSequence_append (r : List Char) :
    (skipOtherEscapeSequence r).1 ++ (skipOtherEscapeSequence r).2 = r := by
  have hs := span_append isCSIIntermediateByte r
  simp only [skipOtherEscapeSequence]
  split
  · rename_i c r2 heq
    rw [List.append_assoc, List.singleton_append, ← heq]
    exact hs
  · rename_i heq
    rw [heq] at hs
    exact hs

/-- The segmenter loop is lossless: concatenating all segment texts yields
the pending buffer followed by the remaining input. -/
theorem extractSegmentsGo_join :
    ∀ (fuel : Nat) (buf rest : List Char), rest.length ≤ fuel →
      ((extractSegmentsGo fuel buf rest).map Segment.text).flatten = buf ++ rest := by
  intro fuel
  induction fuel with
  | zero =>
    intro buf rest h
    have hr : rest = [] := by
      cases rest with
      | nil => rfl
      | cons a b => simp at h
    subst hr
    by_cases hb : buf = [] <;> simp [extractSegmentsGo, hb]
  | succ fuel ih =>
    intro buf rest h
    cases rest with
    | nil => by_cases hb : buf = [] <;> simp [extractSegmentsGo, hb]
    | cons c r =>
      simp only [extractSegmentsGo]
      by_cases hesc : c = escapeChar ∧ r ≠ []
      · rw [if_pos hesc]
        split
        · -- CSI sequence, r = '[' :: r2
          rename_i r2
          have hcsi := skipCSISequence_append r2
          have hlen : (skipCSISequence r2).2.length ≤ fuel := by
            have h1 := append_eq_length_le hcsi
            simp only [List.length_cons] at h
            omega
          have hrec := ih [] (skipCSISequence r2).2 hlen
          conv_rhs => rw [← hcsi]
          by_cases hb : buf = [] <;>
            simp [hb, hrec, List.append_assoc]
        · -- non-CSI escape sequence
          have hoth := skipOtherEscapeSequence_append r
          have hlen : (skipOtherEscapeSequence r).2.length ≤ fuel := by
            have h1 := append_eq_length_le hoth
            simp only [List.length_cons] at h
            omega
          have hrec := ih [] (skipOtherEscapeSequence r).2 hlen
          conv_rhs => rw [← hoth]
          by_cases hb : buf = [] <;>
            simp [hb, hrec, List.append_assoc]
      · rw [if_neg hesc]
        have hrec := ih (buf ++ [c]) r (by simp only [List.length_cons] at h; omega)
        rw [hrec]
        simp

/-- C7: the segmenter decomposes every input into an ordered, gap-free,
non-overlapping sequence of segments whose concatenation is exactly the
input; one control sequence immediately followed by plain text yields
exactly the two expected segments in order, and stripping the control
sequence from `"\x1b[Khello"` yields `"hello"`. -/
theorem extractSegments_lossless :
    (∀ input : List Char, ((extractSegments input).map Segment.text).flatten = input) ∧
    extractSegments (lit "\x1b[Khello") =
      [⟨lit "\x1b[K", true⟩, ⟨lit "hello", false⟩] ∧
    stripANSI (lit "\x1b[Khello") = lit "hello" := by
  refine ⟨?_, by decide, by decide⟩
  intro input
  have hgo := extractSegmentsGo_join input.length [] input le_rfl
  simpa [extractSegments] using hgo

/-- Once the mode is resolved, `classifyWord` keeps it and stays resolved. -/
theorem classifyWord_mode_stable (l : Lexer) (w : List Char) (hd : l.detectedMode = true) :
    (classifyWord l w).2.parseMode = l.parseMode ∧
    (classifyWord l w).2.detectedMode = true := by
  have hcond : ¬(l.parseMode = .auto ∧ l.detectedMode = false) := by simp [hd]
  unfold classifyWord
  rw [if_neg hcond]
  dsimp only
  split_ifs with hm
  · rw [classifyShowWord_fields]
    exact ⟨rfl, hd⟩
  · obtain ⟨_, _, hpm, hdm⟩ := classifyConfigWord_fields l w (strLower w)
    exact ⟨hpm, hdm.trans hd⟩

/-- Once the mode is resolved, `nextToken` keeps it and stays resolved. -/
theorem nextToken_mode_stable (l : Lexer) (hd : l.detectedMode = true) :
    (nextToken l).2.parseMode = l.parseMode ∧
    (nextToken l).2.detectedMode = true := by
  unfold nextToken
  split
  · exact ⟨rfl, hd⟩
  · split_ifs with h1 h2 h3 h4 h5
    · exact ⟨rfl, hd⟩
    · exact ⟨rfl, hd⟩
    · exact ⟨rfl, hd⟩
    · exact ⟨rfl, hd⟩
    · exact ⟨rfl, hd⟩
    · exact classifyWord_mode_stable l _ hd

/-- C4: mode resolution happens at most once.  On the first classification of
an Auto-mode lexer the mode becomes the detector's verdict and the instance
is marked resolved; afterwards every classification dispatches on exactly the
stored resolved mode and leaves it untouched, and every scan step
(`nextToken`) preserves the stored mode, so an instance never flips mode
mid-stream. -/
theorem mode_resolved_once :
    (∀ (l : Lexer) (w : List Char), l.parseMode = .auto → l.detectedMode = false →
      (classifyWord l w).2.parseMode = detectParseMode l.input ∧
      (classifyWord l w).2.detectedMode = true) ∧
    (∀ (l : Lexer) (w : List Char), l.detectedMode = true →
      classifyWord l w =
        (if l.parseMode = .showMode then classifyShowWord l w (strLower w)
         else classifyConfigWord l w (strLower w)) ∧
      (classifyWord l w).2.parseMode = l.parseMode ∧
      (classifyWord l w).2.detectedMode = true) ∧
    (∀ l : Lexer, l.detectedMode = true →
      (nextToken l).2.parseMode = l.parseMode ∧
      (nextToken l).2.detectedMode = true) := by
  refine ⟨?_, ?_, fun l hd => nextToken_mode_stable l hd⟩
  · intro l w ha hf
    unfold classifyWord
    rw [if_pos (show l.parseMode = ParseMode.auto ∧ l.detectedMode = false from ⟨ha, hf⟩)]
    dsimp only
    split_ifs with hm
    · rw [classifyShowWord_fields]
      exact ⟨rfl, rfl⟩
    · obtain ⟨_, _, hpm, hdm⟩ := classifyConfigWord_fields
        { l with parseMode := detectParseMode l.input, detectedMode := true } w (strLower w)
      exact ⟨hpm, hdm⟩
  · intro l w hd
    refine ⟨?_, classifyWord_mode_stable l w hd⟩
    unfold classifyWord
    rw [if_neg (show ¬(l.parseMode = ParseMode.auto ∧ l.detectedMode = false) by simp [hd])]

/-- C4 (witness): the three parts of the theorem applied at concrete states:
a fresh Auto lexer over `"x"`, and an already-resolved Config lexer. -/
theorem mode_resolved_once_witness :
    ((classifyWord (Lexer.new (lit "x") .auto false) (lit "x")).2.parseMode =
        detectParseMode (lit "x") ∧
      (classifyWord (Lexer.new (lit "x") .auto false) (lit "x")).2.detectedMode = true) ∧
    ((classifyWord (Lexer.new (lit "x") .config true) (lit "x")).2.parseMode =
        (Lexer.new (lit "x") .config true).parseMode ∧
      (classifyWord (Lexer.new (lit "x") .config true) (lit "x")).2.detectedMode = true) ∧
    ((nextToken (Lexer.new (lit "x") .config true)).2.parseMode =
        (Lexer.new (lit "x") .config true).parseMode ∧
      (nextToken (Lexer.new (lit "x") .config true)).2.detectedMode = true) :=
  ⟨mode_resolved_once.1 (Lexer.new (lit "x") .auto false) (lit "x") rfl rfl,
   (mode_resolved_once.2.1 (Lexer.new (lit "x") .config true) (lit "x") rfl).2,
   mode_resolved_once.2.2 (Lexer.new (lit "x") .config true) rfl⟩

/-- Discharging one step of a classification priority chain: if the branch
for a failed-or-taken condition is a category other than `Community`, a
`Community` verdict must come from the rest of the chain. -/
theorem ite_comm_elim {c : Prop} [Decidable c] {a b : TokenType}
    (h : (if c then a else b) = .community) (ha : a ≠ .community) : b = .community := by
  by_cases hc : c
  · rw [if_pos hc] at h
    exact absurd h ha
  · rwa [if_neg hc] at h

/-- The shared pattern chain yields `Community` only under the context
gate. -/
theorem classifySharedPatterns_community (l : Lexer) (w : List Char)
    (h : classifySharedPatterns l w = .community) : l.lastToken = lit "community" := by
  unfold classifySharedPatterns at h
  split_ifs at h
  all_goals first | exact TokenType.noConfusion h | exact And.left (by assumption)

theorem classifyConfigWord_community (l : Lexer) (w lo : List Char)
    (h : (classifyConfigWord l w lo).1 = .community) : l.lastToken = lit "community" := by
  rw [classifyConfigWord.eq_def] at h
  simp only [apply_ite (Prod.fst : TokenType × Lexer → TokenType)] at h
  have h2 := ite_comm_elim (ite_comm_elim (ite_comm_elim (ite_comm_elim (ite_comm_elim
    (ite_comm_elim (ite_comm_elim (ite_comm_elim h (by decide)) (by decide)) (by decide))
    (by decide)) (by decide)) (by decide)) (by decide)) (by decide)
  exact classifySharedPatterns_community l w h2

theorem classifyShowWord_community (l : Lexer) (w lo : List Char)
    (h : (classifyShowWord l w lo).1 = .community) : l.lastToken = lit "community" := by
  rw [classifyShowWord.eq_def] at h
  simp only [apply_ite (Prod.fst : TokenType × Lexer → TokenType)] at h
  have h2 := ite_comm_elim (ite_comm_elim (ite_comm_elim (ite_comm_elim (ite_comm_elim
    (ite_comm_elim (ite_comm_elim (ite_comm_elim (ite_comm_elim (ite_comm_elim
    (ite_comm_elim (ite_comm_elim h (by decide)) (by decide)) (by decide)) (by decide))
    (by decide)) (by decide)) (by decide)) (by decide)) (by decide)) (by decide))
    (by decide)) (by decide)
  exact classifySharedPatterns_community l w h2

theorem classifyWord_community (l : Lexer) (w : List Char)
    (h : (classifyWord l w).1 = .community) : l.lastToken = lit "community" := by
  unfold classifyWord at h
  by_cases hres : l.parseMode = .auto ∧ l.detectedMode = false
  · rw [if_pos (show l.parseMode = ParseMode.auto ∧ l.detectedMode = false from hres)] at h
    dsimp only at h
    split_ifs at h with hm
    · exact classifyShowWord_community
        { l with parseMode := detectParseMode l.input, detectedMode := true } w (strLower w) h
    · exact classifyConfigWord_community
        { l with parseMode := detectParseMode l.input, detectedMode := true } w (strLower w) h
  · rw [if_neg hres] at h
    dsimp only at h
    split_ifs at h with hm
    · exact classifyShowWord_community l w (strLower w) h
    · exact classifyConfigWord_community l w (strLower w) h

/-- C6: a digit-colon-digit word is classified `Community` only when the most
recently remembered classified word is literally `community`; `"12:00"` and
`"3:45"` alone tokenize to a single Identifier, while in
`"community 65000:100"` the second word is classified `Community`. -/
theorem community_context_gate :
    (∀ (l : Lexer) (w : List Char),
      (classifyWord l w).1 = .community → l.lastToken = lit "community") ∧
    (tokenize (lit "12:00")).map Token.type = [.identifier] ∧
    (tokenize (lit "3:45")).map Token.type = [.identifier] ∧
    (tokenize (lit "community 65000:100")).map (fun t => (t.type, t.value)) =
      [(.keyword, lit "community"), (.text, lit " "), (.community, lit "65000:100")] := by
  refine ⟨fun l w h => classifyWord_community l w h, by decide, by decide, by decide⟩

/-- C6 (witness): the gate theorem applied at a lexer state that classifies
`"65000:100"` as a Community token. -/
theorem community_context_gate_witness :
    (Lexer.mk (lit "65000:100") 0 1 1 .config true false (lit "community")).lastToken =
      lit "community" :=
  community_context_gate.1
    (Lexer.mk (lit "65000:100") 0 1 1 .config true false (lit "community"))
    (lit "65000:100") (by decide)

/-- C5: the detector returns Show exactly when `showScore ≥ 2` and
`showScore > configScore`, and Config otherwise (ties and weak signals
default to Config); on the sample configuration snippet it returns Config. -/
theorem detectParseMode_rule :
    (∀ input : List Char,
      (detectParseMode input = .showMode ↔
        (2 ≤ showScore input ∧ configScore input < showScore input)) ∧
      (detectParseMode input = .config ↔
        ¬(2 ≤ showScore input ∧ configScore input < showScore input))) ∧
    detectParseMode
      (lit "!\nhostname router\n!\ninterface GigabitEthernet0/0/0\n ip address 10.0.0.1 255.255.255.0\n!") =
      .config := by
  refine ⟨?_, by decide⟩
  intro input
  unfold detectParseMode
  by_cases hc : 2 ≤ showScore input ∧ configScore input < showScore input
  · rw [if_pos hc]
    simp [hc]
  · rw [if_neg hc]
    simp [hc]

/-- C8: the interface-name grammar classifies the five sample words as
Interface tokens, while `"Ethernet"` alone (no trailing digits) falls through
to Identifier. -/
theorem interface_grammar :
    (tokenize (lit "GigabitEthernet0/0/0.100")).map (fun t => (t.type, t.value)) =
      [(.interfaceTk, lit "GigabitEthernet0/0/0.100")] ∧
    (tokenize (lit "Gi0/0/0.10")).map (fun t => (t.type, t.value)) =
      [(.interfaceTk, lit "Gi0/0/0.10")] ∧
    (tokenize (lit "Po1")).map (fun t => (t.type, t.value)) =
      [(.interfaceTk, lit "Po1")] ∧
    (tokenize (lit "Lo0")).map (fun t => (t.type, t.value)) =
      [(.interfaceTk, lit "Lo0")] ∧
    (tokenize (lit "BDI1")).map (fun t => (t.type, t.value)) =
      [(.interfaceTk, lit "BDI1")] ∧
    (tokenize (lit "Ethernet")).map (fun t => (t.type, t.value)) =
      [(.identifier, lit "Ethernet")] := by
  refine ⟨by decide, by decide, by decide, by decide, by decide, by decide⟩

/-- C10: the enabled flag gates all three highlighting entry points: after
`Disable`, or after `Toggle` from the enabled state, `Highlight`,
`HighlightForced` and `HighlightShowOutput` return every input unchanged, and
the empty input is returned unchanged even when enabled. -/
theorem highlighter_enabled_gate :
    (∀ (h : Highlighter) (input : List Char),
      Highlight (Highlighter.disable h) input = input ∧
      HighlightForced (Highlighter.disable h) input = input ∧
      HighlightShowOutput (Highlighter.disable h) input = input) ∧
    (∀ (h : Highlighter) (input : List Char), h.enabled = true →
      Highlight (Highlighter.toggle h) input = input ∧
      HighlightForced (Highlighter.toggle h) input = input ∧
      HighlightShowOutput (Highlighter.toggle h) input = input) ∧
    (∀ h : Highlighter,
      Highlight h [] = [] ∧ HighlightForced h [] = [] ∧
      HighlightShowOutput h [] = []) := by
  refine ⟨?_, ?_, ?_⟩
  · intro h input
    refine ⟨?_, ?_, ?_⟩ <;>
      simp [Highlight, HighlightForced, HighlightShowOutput, Highlighter.disable]
  · intro h input he
    refine ⟨?_, ?_, ?_⟩ <;>
      simp [Highlight, HighlightForced, HighlightShowOutput, Highlighter.toggle, he]
  · intro h
    refine ⟨?_, ?_, ?_⟩ <;>
      simp [Highlight, HighlightForced, HighlightShowOutput]

/-- C10 (witness): the gate theorem applied to a toggled default
highlighter. -/
theorem highlighter_enabled_gate_witness :
    Highlight (Highlighter.toggle Highlighter.new) (lit "abc") = lit "abc" ∧
    HighlightForced (Highlighter.toggle Highlighter.new) (lit "abc") = lit "abc" ∧
    HighlightShowOutput (Highlighter.toggle Highlighter.new) (lit "abc") = lit "abc" :=
  highlighter_enabled_gate.2.1 Highlighter.new (lit "abc") rfl

/-- C3: control-sequence passthrough holds for the FORCED entry point only:
on an enabled highlighter, `HighlightForced` is exactly the reassembly that
emits each escape segment verbatim in its original position and renders each
plain-text segment.  (The auto-detecting entry point strips the escapes
instead; see the counterexample.) -/
theorem forced_highlight_interleaves (h : Highlighter) (input : List Char)
    (he : h.enabled = true) (hne : input ≠ []) :
    HighlightForced h input =
      ((extractSegments input).map (fun seg =>
        if seg.isEscape then seg.text else highlightTokensCleaned h seg.text)).flatten := by
  unfold HighlightForced
  rw [if_neg (by simp [he, hne])]
  rfl

/-- C3 (witness): the interleaving equation evaluated on a concrete escape-
prefixed input with the default highlighter. -/
theorem forced_highlight_interleaves_witness :
    HighlightForced Highlighter.new (lit "\x1b[Kno shutdown") =
      ((extractSegments (lit "\x1b[Kno shutdown")).map (fun seg =>
        if seg.isEscape then seg.text
        else highlightTokensCleaned Highlighter.new seg.text)).flatten :=
  forced_highlight_interleaves Highlighter.new (lit "\x1b[Kno shutdown") rfl (by decide)

/-- C3 (counterexample): the auto-detecting entry point does NOT emit the
control-sequence segment in its original position.  The input decomposes
into the escape segment `"\x1b[K"` followed by Cisco-looking text, so the
claim requires the output to begin with `"\x1b[K"`; `HighlightForced`
preserves that prefix but `Highlight` (which strips escapes before
rendering) does not. -/
theorem auto_highlight_drops_escapes :
    extractSegments (lit "\x1b[Kinterface GigabitEthernet0/0/0") =
      [⟨lit "\x1b[K", true⟩, ⟨lit "interface GigabitEthernet0/0/0", false⟩] ∧
    (lit "\x1b[K").isPrefixOf
      (HighlightForced Highlighter.new (lit "\x1b[Kinterface GigabitEthernet0/0/0")) =
      true ∧
    (lit "\x1b[K").isPrefixOf
      (Highlight Highlighter.new (lit "\x1b[Kinterface GigabitEthernet0/0/0")) =
      false := by
  refine ⟨by decide, by decide, by decide⟩

/-- In Config mode `classifyWord` is exactly `classifyConfigWord` on the
lower-cased word. -/
theorem classifyWord_config (l : Lexer) (w : List Char) (hm : l.parseMode = .config) :
    classifyWord l w = classifyConfigWord l w (strLower w) := by
  unfold classifyWord
  rw [if_neg (show ¬(l.parseMode = ParseMode.auto ∧ l.detectedMode = false) by simp [hm])]
  dsimp only
  rw [if_neg (show ¬(l.parseMode = ParseMode.showMode) by simp [hm])]

/-- C2 (amended): in Config mode only `description` (via the keywords set)
and `remark` (via the actions set) set the value-expected flag; `hostname`
and `banner` match the commands set first, whose branch never sets the flag,
so they leave it unchanged.  After `description`/`remark` the next
non-whitespace token does consume the remaining unquoted text to end of line
as a single Value token, as the two concrete tokenizations show. -/
theorem value_keywords_flag (l : Lexer) (hm : l.parseMode = .config) :
    ((classifyWord l (lit "description")).2.expectingValue = true ∧
     (classifyWord l (lit "remark")).2.expectingValue = true ∧
     (classifyWord l (lit "hostname")).2.expectingValue = l.expectingValue ∧
     (classifyWord l (lit "banner")).2.expectingValue = l.expectingValue) ∧
    (tokenize (lit "description Up to ISP")).map (fun t => (t.type, t.value)) =
      [(.keyword, lit "description"), (.text, lit " "), (.value, lit "Up to ISP")] ∧
    (tokenize (lit "remark allow all")).map (fun t => (t.type, t.value)) =
      [(.action, lit "remark"), (.text, lit " "), (.value, lit "allow all")] := by
  refine ⟨⟨?_, ?_, ?_, ?_⟩, by decide, by decide⟩
  · rw [classifyWord_config l _ hm,
        show strLower (lit "description") = lit "description" from by decide,
        classifyConfigWord.eq_def]
    rw [if_neg (by decide), if_neg (by decide), if_neg (by decide), if_neg (by decide),
        if_neg (by decide), if_neg (by decide), if_neg (by decide), if_pos (by decide)]
    dsimp only
    rw [if_pos (by decide)]
  · rw [classifyWord_config l _ hm,
        show strLower (lit "remark") = lit "remark" from by decide,
        classifyConfigWord.eq_def]
    rw [if_neg (by decide), if_neg (by decide), if_neg (by decide), if_neg (by decide),
        if_neg (by decide), if_pos (by decide)]
    dsimp only
    rw [if_pos (by decide)]
  · rw [classifyWord_config l _ hm,
        show strLower (lit "hostname") = lit "hostname" from by decide,
        classifyConfigWord.eq_def]
    rw [if_neg (by decide), if_neg (by decide), if_pos (by decide)]
  · rw [classifyWord_config l _ hm,
        show strLower (lit "banner") = lit "banner" from by decide,
        classifyConfigWord.eq_def]
    rw [if_neg (by decide), if_neg (by decide), if_pos (by decide)]

/-- C2 (witness): the flag behavior at a concrete Config-mode lexer. -/
theorem value_keywords_flag_witness :
    ((classifyWord (Lexer.new (lit "description x") .config true)
        (lit "description")).2.expectingValue = true ∧
     (classifyWord (Lexer.new (lit "description x") .config true)
        (lit "remark")).2.expectingValue = true ∧
     (classifyWord (Lexer.new (lit "description x") .config true)
        (lit "hostname")).2.expectingValue =
       (Lexer.new (lit "description x") .config true).expectingValue ∧
     (classifyWord (Lexer.new (lit "description x") .config true)
        (lit "banner")).2.expectingValue =
       (Lexer.new (lit "description x") .config true).expectingValue) ∧
    (tokenize (lit "description Up to ISP")).map (fun t => (t.type, t.value)) =
      [(.keyword, lit "description"), (.text, lit " "), (.value, lit "Up to ISP")] ∧
    (tokenize (lit "remark allow all")).map (fun t => (t.type, t.value)) =
      [(.action, lit "remark"), (.text, lit " "), (.value, lit "allow all")] :=
  value_keywords_flag (Lexer.new (lit "description x") .config true) rfl

/-- C2 (counterexample): classifying `hostname` (and `banner`) does NOT set
the value-expected flag — they hit the commands set first — so the text
after `hostname` is tokenized normally (here to an Identifier), not as a
Value running to end of line. -/
theorem hostname_banner_no_value_flag :
    (classifyWord (Lexer.new (lit "hostname SomeHost") .auto false)
      (lit "hostname")).2.expectingValue = false ∧
    (classifyWord (Lexer.new (lit "banner motd") .auto false)
      (lit "banner")).2.expectingValue = false ∧
    (tokenize (lit "hostname SomeHost")).map (fun t => (t.type, t.value)) =
      [(.command, lit "hostname"), (.text, lit " "), (.identifier, lit "SomeHost")] := by
  refine ⟨by decide, by decide, by decide⟩

theorem length_dropWhile_le (p : Char → Bool) (l : List Char) :
    (l.dropWhile p).length ≤ l.length := by
  have h := congrArg List.length (List.takeWhile_append_dropWhile (p := p) (l := l))
  simp only [List.length_append] at h
  omega

theorem trimSpace_length_le (s : List Char) : (trimSpace s).length ≤ s.length := by
  unfold trimSpace
  calc (((s.dropWhile isSpaceGo).reverse.dropWhile isSpaceGo).reverse).length
      = ((s.dropWhile isSpaceGo).reverse.dropWhile isSpaceGo).length := by
        rw [List.length_reverse]
    _ ≤ (s.dropWhile isSpaceGo).reverse.length := length_dropWhile_le _ _
    _ = (s.dropWhile isSpaceGo).length := by rw [List.length_reverse]
    _ ≤ s.length := length_dropWhile_le _ _

/-- A successful prompt tail match decomposes its input into whitespace run,
command text, and optional trailing newline. -/
theorem promptTailMatch_decomp (r : List Char) (t : List Char × List Char × List Char)
    (h : promptTailMatch r = some t) : r = t.1 ++ t.2.1 ++ t.2.2 := by
  have hs := span_append isWsRe r
  unfold promptTailMatch at h
  dsimp only at h
  split_ifs at h with h1 h2
  · obtain rfl := Option.some.inj h
    show r = (List.span isWsRe r).1 ++ (List.span isWsRe r).2 ++ []
    rw [List.append_nil]
    exact hs.symm
  · obtain rfl := Option.some.inj h
    dsimp only
    have hlast : (List.span isWsRe r).2.getLast? = some '\n' := by
      have hb := (Bool.and_eq_true _ _).mp h2
      simpa using hb.1
    have hdl : (List.span isWsRe r).2.dropLast ++ ['\n'] = (List.span isWsRe r).2 :=
      List.dropLast_append_getLast? '\n' (by simpa using hlast)
    rw [List.append_assoc, hdl]
    exact hs.symm

/-- A matched prompt contains a non-empty hostname and the prompt character
besides the trailing command text, so the command is at least two characters
shorter than the input. -/
theorem promptMatch_g5_len (input : List Char) (m : PromptGroups)
    (h : promptMatch input = some m) : m.g5.length + 2 ≤ input.length := by
  have h1 := congrArg List.length (span_append isPromptLeadCh input)
  have h2 := congrArg List.length (span_append isHostCh (List.span isPromptLeadCh input).2)
  simp only [List.length_append] at h1 h2
  unfold promptMatch at h
  dsimp only at h
  split_ifs at h with he
  have hhost : 1 ≤ (List.span isHostCh (List.span isPromptLeadCh input).2).1.length := by
    have hne : (List.span isHostCh (List.span isPromptLeadCh input).2).1 ≠ [] := by
      simpa [List.isEmpty_iff] using he
    exact List.length_pos.mpr hne
  split at h
  · -- s2.2 = '(' :: r3
    rename_i r3 heqA
    have h3 := congrArg List.length (span_append isModeCh r3)
    simp only [List.length_append] at h3
    have hA := congrArg List.length heqA
    simp only [List.length_cons] at hA
    split_ifs at h with he3
    split at h
    · -- s3.2 = ')' :: c :: r6
      rename_i c r6 heqB
      have hB := congrArg List.length heqB
      simp only [List.length_cons] at hB
      split_ifs at h with hc
      split at h
      · rename_i t heqC
        obtain rfl := Option.some.inj h
        have hd := congrArg List.length (promptTailMatch_decomp r6 t heqC)
        simp only [List.length_append] at hd
        dsimp only
        omega
      · exact Option.noConfusion h
    · exact Option.noConfusion h
  · -- s2.2 = c :: r6, c not '('
    rename_i c r6 hne2 heqA
    have hA := congrArg List.length heqA
    simp only [List.length_cons] at hA
    split_ifs at h with hc
    split at h
    · rename_i t heqC
      obtain rfl := Option.some.inj h
      have hd := congrArg List.length (promptTailMatch_decomp r6 t heqC)
      simp only [List.length_append] at hd
      dsimp only
      omega
    · exact Option.noConfusion h
  · exact Option.noConfusion h

/-- With any fuel exceeding the input length, `tokenizeCore` computes the
same tokens: the prompt-command recursion always recurses on a strictly
shorter input, so fuel `input.length + 1` is always enough. -/
theorem tokenizeCore_fuel_stable :
    ∀ (n : Nat) (input : List Char), input.length ≤ n →
      ∀ (f : Nat) (pm : ParseMode) (dm : Bool), input.length < f →
        tokenizeCore f pm dm input = tokenizeCore (input.length + 1) pm dm input := by
  intro n
  induction n with
  | zero =>
    intro input hlen f pm dm hf
    have hnil : input = [] := List.length_eq_zero.mp (Nat.le_zero.mp hlen)
    subst hnil
    obtain ⟨f2, rfl⟩ : ∃ f2, f = f2 + 1 := ⟨f - 1, by omega⟩
    simp only [tokenizeCore]
    rw [show promptMatch ([] : List Char) = none from by decide]
  | succ n ih =>
    intro input hlen f pm dm hf
    obtain ⟨f2, rfl⟩ : ∃ f2, f = f2 + 1 := ⟨f - 1, by omega⟩
    simp only [tokenizeCore]
    cases hp : promptMatch input with
    | none => simp [hp]
    | some m =>
      simp only [hp]
      by_cases hg : m.g5 = []
      · simp [hg]
      · have hlt := promptMatch_g5_len input m hp
        have htrim : (trimSpace m.g5).length ≤ m.g5.length := trimSpace_length_le _
        rw [if_neg hg, if_neg hg]
        rw [ih (trimSpace m.g5) (by omega) f2 .auto false (by omega),
            ih (trimSpace m.g5) (by omega) input.length .auto false (by omega)]

/-- C9 (amended): `Tokenize` is total — every scan step strictly advances
the cursor, and the recursive re-lexing of trailing prompt command text is
always over a strictly shorter input, so recursion depth is bounded by the
input length and any fuel beyond `input.length` computes the same result.
(The claim's stronger bound of ONE extra pass fails for nested prompts; see
the counterexample.) -/
theorem tokenize_total :
    (∀ l : Lexer, l.pos < l.input.length → l.pos < (nextToken l).2.pos) ∧
    (∀ (input : List Char) (m : PromptGroups), promptMatch input = some m →
      (trimSpace m.g5).length < input.length) ∧
    (∀ (f : Nat) (pm : ParseMode) (dm : Bool) (input : List Char), input.length < f →
      tokenizeCore f pm dm input = tokenizeCore (input.length + 1) pm dm input) := by
  refine ⟨?_, ?_, ?_⟩
  · intro l hlt
    obtain ⟨hv, _, hp, _⟩ := nextToken_spec l hlt
    have hone : 1 ≤ (nextToken l).1.value.length := by
      cases hx : (nextToken l).1.value with
      | nil => exact absurd hx hv
      | cons a b => simp
    omega
  · intro input m h
    have ha := promptMatch_g5_len input m h
    have hb := trimSpace_length_le m.g5
    omega
  · intro f pm dm input hf
    exact tokenizeCore_fuel_stable input.length input le_rfl f pm dm hf

/-- C9 (witness): strict advance on a fresh two-character lexer, the
strictly-shorter command of the prompt `"R#x"`, and fuel-stability at fuel
10 on `"ab"`. -/
theorem tokenize_total_witness :
    (Lexer.new (lit "ab") .auto false).pos <
      (nextToken (Lexer.new (lit "ab") .auto false)).2.pos ∧
    (trimSpace (PromptGroups.mk [] (lit "R") [] '#' [] (lit "x") []).g5).length <
      (lit "R#x").length ∧
    tokenizeCore 10 .auto false (lit "ab") =
      tokenizeCore ((lit "ab").length + 1) .auto false (lit "ab") :=
  ⟨tokenize_total.1 (Lexer.new (lit "ab") .auto false) (by decide),
   tokenize_total.2.1 (lit "R#x") (PromptGroups.mk [] (lit "R") [] '#' [] (lit "x") [])
     (by decide),
   tokenize_total.2.2 10 .auto false (lit "ab") (by decide)⟩

/-- C9 (counterexample): the re-lexing of trailing prompt command text is
NOT bounded to one extra tokenizing pass.  On `"R#S#x"` the command `"S#x"`
is itself a prompt, so tokenizing takes three passes in total — two extra
passes, not one. -/
theorem tokenize_passes_not_bounded_by_two :
    tokenizePasses ((lit "R#S#x").length + 1) (lit "R#S#x") = 3 ∧
    ¬ tokenizePasses ((lit "R#S#x").length + 1) (lit "R#S#x") ≤ 2 := by
  refine ⟨by decide, by decide⟩

end Cink
